import Mathlib

/-!
Shallow embedding of `kplr/ld.py`: limb-darkening coefficient lookup
(Claret & Bloemen 2011 grid) with a cached-download provisioner.

The dataset is a SQLite table `claret11 (teff, logg, feh, veloc, mu1, mu2)`,
all REAL.  We model REAL values as `ℚ` and the table as a `List Row` in the
storage engine's natural row order.  SQL `NULL` query parameters are `Option`
values; `NULL` propagates through arithmetic and sorts before every number in
SQLite's `ORDER BY`, and `ORDER BY ... LIMIT 1` returns the first row (in
natural order) attaining the minimal key.
-/

/-- One row of the `claret11` table (schema from `download_database`'s
doc string: `teff REAL, logg REAL, feh REAL, veloc REAL, mu1 REAL, mu2 REAL`). -/
structure Row where
  teff : ℚ
  logg : ℚ
  feh : ℚ
  veloc : ℚ
  mu1 : ℚ
  mu2 : ℚ
deriving DecidableEq, Repr

/-- Abstract error taxonomy for the failure modes of `ld.py` (the spec's
names; in Python these surface as AssertionError, a failed unpacking of
`fetchone()` returning `None`, and the `RuntimeError` raised on a non-200
HTTP status). -/
inductive LDError where
  | invalidQuery
  | lookupError
  | downloadError
deriving DecidableEq, Repr

/-- SQLite's `abs()` function on a numeric value. -/
def sqlAbs (x : ℚ) : ℚ := if x < 0 then -x else x

/-- SQLite `ORDER BY` comparison for a key that may be `NULL`:
`NULL` sorts before every numeric value, and all `NULL`s compare equal. -/
def nullFirstLt : Option ℚ → Option ℚ → Bool
  | none, none => false
  | none, some _ => true
  | some _, none => false
  | some a, some b => decide (a < b)

/-- The stage-2 distance expression
`(logg-?) * (logg-?) + (feh-?) * (feh-?)` with the two query parameters
possibly `NULL`; `NULL` propagates through `-`, `*` and `+`. -/
def sqlDist (logg feh : Option ℚ) (r : Row) : Option ℚ :=
  match logg, feh with
  | some l, some f => some ((r.logg - l) * (r.logg - l) + (r.feh - f) * (r.feh - f))
  | _, _ => none

/-- One step of scanning for the `ORDER BY ... LIMIT 1` row: keep the
best-so-far row, replacing it only when the new row's key is strictly
smaller (so ties keep the earlier row). -/
def pickStep (key : Row → Option ℚ) (best : Option Row) (r : Row) : Option Row :=
  match best with
  | none => some r
  | some b => if nullFirstLt (key r) (key b) then some r else some b

/-- `ORDER BY key LIMIT 1` over rows in natural order: the first row
attaining the minimal key. -/
def pickMin (key : Row → Option ℚ) (db : List Row) : Option Row :=
  db.foldl (pickStep key) none

/-- The nested subquery
`SELECT teff FROM claret11 ORDER BY abs(teff-?) LIMIT 1`:
the `teff` of the first row minimizing `abs(teff - t)`, `NULL` (`none`) on
an empty table. -/
def stage1Teff (db : List Row) (t : ℚ) : Option ℚ :=
  (pickMin (fun r => some (sqlAbs (r.teff - t))) db).map Row.teff

/-- The rows the outer `WHERE teff = (...)` retains: those whose `teff`
equals the stage-1 value (none when the subquery returned no row, i.e.
`NULL`, which `=` matches never). -/
def stage2Rows (db : List Row) (t : ℚ) : List Row :=
  match stage1Teff db t with
  | none => []
  | some tv => db.filter fun r => decide (r.teff = tv)

/-- The SQL query of `LDCoeffAdaptor.get_coeffs`:

```
SELECT mu1,mu2 FROM claret11 WHERE
teff=(SELECT teff FROM claret11 ORDER BY abs(teff-?) LIMIT 1)
ORDER BY (logg-?) * (logg-?) + (feh-?) * (feh-?) LIMIT 1
```

followed by `mu1, mu2 = rows.fetchone()`, which fails (`.lookupError`)
when the query yields no row. -/
def sqlFetch (db : List Row) (t : ℚ) (logg feh : Option ℚ) : Except LDError (ℚ × ℚ) :=
  match pickMin (sqlDist logg feh) (stage2Rows db t) with
  | none => .error .lookupError
  | some r => .ok (r.mu1, r.mu2)

/-- `LDCoeffAdaptor.get_coeffs` at the level of the row list, instrumented
with the number of database connections opened: `assert teff is not None`
runs before `sqlite3.connect`, so a `None` `teff` fails with zero accesses. -/
def get_coeffsCount (db : List Row) (teff logg feh : Option ℚ) :
    Except LDError (ℚ × ℚ) × Nat :=
  match teff with
  | none => (.error .invalidQuery, 0)
  | some t => (sqlFetch db t logg feh, 1)

/-- `LDCoeffAdaptor.get_coeffs`: the returned value alone. -/
def get_coeffs (db : List Row) (teff logg feh : Option ℚ) : Except LDError (ℚ × ℚ) :=
  (get_coeffsCount db teff logg feh).1

/-- The two-row dataset of the spec's worked example
(`veloc` is an arbitrary value `v`; we use `2`). -/
def exampleDB : List Row :=
  [⟨5750, 4.5, 0, 2, 0.31, 0.25⟩, ⟨6000, 4, 0, 2, 0.28, 0.22⟩]

/-! ## The provisioner (`download_database`)

The filesystem is a map from paths to file contents, a file's contents being
the row list its SQLite database holds; the fixed remote endpoint is an HTTP
response (status code and body).  `download_database` is embedded as a state
transformer returning the result, the filesystem after the call, and how many
network requests were issued. -/

/-- A filesystem: files (newest association first) and the directories
created so far. -/
structure FS where
  files : List (String × List Row)
  dirs : List String
deriving DecidableEq, Repr

/-- Contents of the file at `p`, if one exists. -/
def FS.read (fs : FS) (p : String) : Option (List Row) :=
  (fs.files.find? fun e => decide (e.1 = p)).map (·.2)

/-- `os.path.exists`. -/
def FS.fileExists (fs : FS) (p : String) : Bool :=
  (fs.read p).isSome

/-- Write (create or overwrite) the file at `p`. -/
def FS.write (fs : FS) (p : String) (c : List Row) : FS :=
  ⟨(p, c) :: fs.files, fs.dirs⟩

/-- Remove the file at `p` if present. -/
def FS.erase (fs : FS) (p : String) : FS :=
  ⟨fs.files.filter fun e => !decide (e.1 = p), fs.dirs⟩

/-- `os.rename src dst`: atomic; a no-op when `src` does not exist. -/
def FS.rename (fs : FS) (src dst : String) : FS :=
  match fs.read src with
  | none => fs
  | some c => (fs.erase src).write dst c

/-- `os.makedirs(data_root)` wrapped in `try/except os.error: pass`:
never fails, touches no file. -/
def FS.mkdirs (fs : FS) (d : String) : FS :=
  ⟨fs.files, d :: fs.dirs⟩

/-- What the fixed remote URL answers: an HTTP status code and the
dataset the response body decodes to. -/
structure HTTPResponse where
  status : Nat
  body : List Row
deriving DecidableEq, Repr

/-- Result of one `download_database` call: the returned path (or the error
raised), the filesystem afterwards, and the number of HTTP requests made. -/
structure DLOutcome where
  res : Except LDError String
  fs : FS
  netCalls : Nat
deriving Repr

/-- Modelled from the spec: `KPLR_ROOT` (from `kplr/config.py`, not under
`src/`) is the process-wide default root directory, `~/.kplr` unless
overridden by the environment. -/
def KPLR_ROOT : String := "~/.kplr"

/-- `DB_FILENAME = "ldcoeffs.db"`. -/
def DB_FILENAME : String := "ldcoeffs.db"

/-- `os.path.join(data_root, DB_FILENAME)`. -/
def dbPath (data_root : String) : String :=
  data_root ++ "/" ++ DB_FILENAME

/-- `download_database(data_root, clobber)`.  `resp` is what the fixed URL
answers, `tmp` the (fresh) name `NamedTemporaryFile` picks.  If the target
file exists and `clobber` is false, return its path at once.  Otherwise make
the directory, issue the GET, raise on a non-200 status, else write the body
to the temporary file (flush, fsync, close) and atomically rename it onto
the target. -/
def download_database (resp : HTTPResponse) (fs : FS) (tmp : String)
    (data_root : Option String) (clobber : Bool) : DLOutcome :=
  let root := data_root.getD KPLR_ROOT
  let filename := dbPath root
  if !clobber && fs.fileExists filename then
    ⟨.ok filename, fs, 0⟩
  else
    let fs₁ := fs.mkdirs root
    if resp.status ≠ 200 then
      ⟨.error .downloadError, fs₁, 1⟩
    else
      ⟨.ok filename, (fs₁.write tmp resp.body).rename tmp filename, 1⟩

/-- The filesystem as observable after each step of `download_database`:
before the call, after `makedirs`, after the GET, after each partial write
of the response body to the temporary file (a prefix of the rows), and after
the atomic rename.  A crash during the call leaves one of these states. -/
def downloadTrace (resp : HTTPResponse) (fs : FS) (tmp : String)
    (data_root : Option String) (clobber : Bool) : List FS :=
  let root := data_root.getD KPLR_ROOT
  let filename := dbPath root
  if !clobber && fs.fileExists filename then
    [fs]
  else
    let fs₁ := fs.mkdirs root
    if resp.status ≠ 200 then
      [fs, fs₁]
    else
      [fs, fs₁]
        ++ ((List.range (resp.body.length + 1)).map fun k => fs₁.write tmp (resp.body.take k))
        ++ [(fs₁.write tmp resp.body).rename tmp filename]

/-! ## The adaptor object and the convenience function -/

/-- `LDCoeffAdaptor`: holds the path `__init__` stored in `self.db_filename`. -/
structure LDCoeffAdaptor where
  db_filename : String
deriving DecidableEq, Repr

/-- `LDCoeffAdaptor.__init__(data_root, clobber)`: provision the database and
remember its path (a download failure propagates to the constructor's
caller). -/
def LDCoeffAdaptor.new (resp : HTTPResponse) (fs : FS) (tmp : String)
    (data_root : Option String) (clobber : Bool) :
    Except LDError (LDCoeffAdaptor × FS) :=
  let out := download_database resp fs tmp data_root clobber
  match out.res with
  | .error e => .error e
  | .ok filename => .ok (⟨filename⟩, out.fs)

/-- `LDCoeffAdaptor.get_coeffs`: run the query against the database stored at
`self.db_filename` (connecting to a path with no file behaves as an empty
table). -/
def LDCoeffAdaptor.get_coeffs (a : LDCoeffAdaptor) (fs : FS)
    (teff logg feh : Option ℚ) : Except LDError (ℚ × ℚ) :=
  (get_coeffsCount ((fs.read a.db_filename).getD []) teff logg feh).1

/-- `get_quad_coeffs(teff=5778, logg=None, feh=None, data_root=None)`:
construct an `LDCoeffAdaptor` (with the default `clobber=False`) and call its
`get_coeffs`. -/
def get_quad_coeffs (resp : HTTPResponse) (fs : FS) (tmp : String)
    (teff : Option ℚ := some 5778) (logg : Option ℚ := none)
    (feh : Option ℚ := none) (data_root : Option String := none) :
    Except LDError (ℚ × ℚ) :=
  match LDCoeffAdaptor.new resp fs tmp data_root false with
  | .error e => .error e
  | .ok (a, fs') => a.get_coeffs fs' teff logg feh

/-- A filesystem with nothing in it (concrete test fixture). -/
def fsEmpty : FS := ⟨[], []⟩

/-- A filesystem already holding a (cached) database under root `"r"`
(concrete test fixture). -/
def fsCached : FS := ⟨[("r/ldcoeffs.db", [⟨1, 2, 3, 4, 5, 6⟩])], []⟩

/-- A succeeding HTTP response (concrete test fixture). -/
def respOK : HTTPResponse := ⟨200, [⟨1, 2, 3, 4, 5, 6⟩]⟩

/-- A failing HTTP response (concrete test fixture). -/
def respBad : HTTPResponse := ⟨404, []⟩

/-! ## Order lemmas for the NULL-first comparison -/

theorem nf_irrefl (a : Option ℚ) : nullFirstLt a a = false := by
  rcases a with _ | a <;> simp [nullFirstLt]

theorem nf_some_some (a b : ℚ) :
    nullFirstLt (some a) (some b) = decide (a < b) := rfl

theorem nf_trans {a b c : Option ℚ} (h₁ : nullFirstLt b a = false)
    (h₂ : nullFirstLt c b = false) : nullFirstLt c a = false := by
  rcases a with _ | a <;> rcases b with _ | b <;> rcases c with _ | c <;>
    simp [nullFirstLt] at h₁ h₂ ⊢ <;> linarith

theorem nf_absorb {a b c : Option ℚ} (h₁ : nullFirstLt c a = false)
    (h₂ : nullFirstLt c b = true) : nullFirstLt b a = false := by
  rcases a with _ | a <;> rcases b with _ | b <;> rcases c with _ | c <;>
    simp [nullFirstLt] at h₁ h₂ ⊢ <;> linarith

/-! ## `pickMin` returns a row of minimal key -/

theorem pickMin_go (key : Row → Option ℚ) :
    ∀ (db : List Row) (b : Row),
      ∃ r, db.foldl (pickStep key) (some b) = some r ∧ (r = b ∨ r ∈ db) ∧
        nullFirstLt (key b) (key r) = false ∧
        ∀ y ∈ db, nullFirstLt (key y) (key r) = false := by
  intro db
  induction db with
  | nil =>
    intro b
    exact ⟨b, rfl, Or.inl rfl, nf_irrefl _, by simp⟩
  | cons x xs ih =>
    intro b
    rw [List.foldl_cons]
    by_cases h : nullFirstLt (key x) (key b) = true
    · obtain ⟨r, hr, hmem, hle, hall⟩ := ih x
      refine ⟨r, ?_, ?_, ?_, ?_⟩
      · simpa [pickStep, h] using hr
      · rcases hmem with h' | h'
        · exact Or.inr (h' ▸ List.mem_cons_self x xs)
        · exact Or.inr (List.mem_cons_of_mem x h')
      · exact nf_absorb hle h
      · intro y hy
        rcases List.mem_cons.mp hy with h' | h'
        · exact h' ▸ hle
        · exact hall y h'
    · rw [Bool.not_eq_true] at h
      obtain ⟨r, hr, hmem, hle, hall⟩ := ih b
      refine ⟨r, ?_, ?_, hle, ?_⟩
      · simpa [pickStep, h] using hr
      · rcases hmem with h' | h'
        · exact Or.inl h'
        · exact Or.inr (List.mem_cons_of_mem x h')
      · intro y hy
        rcases List.mem_cons.mp hy with h' | h'
        · exact h' ▸ nf_trans hle h
        · exact hall y h'

theorem pickMin_spec (key : Row → Option ℚ) (db : List Row) (h : db ≠ []) :
    ∃ r, pickMin key db = some r ∧ r ∈ db ∧
      ∀ y ∈ db, nullFirstLt (key y) (key r) = false := by
  match db, h with
  | x :: xs, _ =>
    obtain ⟨r, hr, hmem, hle, hall⟩ := pickMin_go key xs x
    refine ⟨r, ?_, ?_, ?_⟩
    · simpa [pickMin, pickStep] using hr
    · rcases hmem with h' | h'
      · exact h' ▸ List.mem_cons_self x xs
      · exact List.mem_cons_of_mem x h'
    · intro y hy
      rcases List.mem_cons.mp hy with h' | h'
      · exact h' ▸ hle
      · exact hall y h'

theorem pickMin_go_all_none (key : Row → Option ℚ) :
    ∀ (db : List Row) (b : Row), key b = none → (∀ y ∈ db, key y = none) →
      db.foldl (pickStep key) (some b) = some b := by
  intro db
  induction db with
  | nil => intro b _ _; rfl
  | cons x xs ih =>
    intro b hb hall
    rw [List.foldl_cons]
    have hx : key x = none := hall x (List.mem_cons_self x xs)
    have : pickStep key (some b) x = some b := by
      simp [pickStep, hx, hb, nullFirstLt]
    rw [this]
    exact ih b hb fun y hy => hall y (List.mem_cons_of_mem x hy)

theorem pickMin_all_none (key : Row → Option ℚ) (db : List Row)
    (hall : ∀ y ∈ db, key y = none) : pickMin key db = db.head? := by
  match db with
  | [] => rfl
  | x :: xs =>
    have hx : key x = none := hall x (List.mem_cons_self x xs)
    have : pickMin key (x :: xs) = xs.foldl (pickStep key) (some x) := by
      simp [pickMin, pickStep]
    rw [this, pickMin_go_all_none key xs x hx
      fun y hy => hall y (List.mem_cons_of_mem x hy)]
    rfl

/-! ## Characterization of the two-stage query -/

theorem stage1Teff_spec (db : List Row) (t : ℚ) (h : db ≠ []) :
    ∃ r1 ∈ db, stage1Teff db t = some r1.teff ∧
      (∀ y ∈ db, ¬ sqlAbs (y.teff - t) < sqlAbs (r1.teff - t)) ∧
      r1 ∈ stage2Rows db t := by
  obtain ⟨r1, hr1, hmem, hall⟩ :=
    pickMin_spec (fun r => some (sqlAbs (r.teff - t))) db h
  have hs : stage1Teff db t = some r1.teff := by
    simp [stage1Teff, hr1]
  refine ⟨r1, hmem, hs, ?_, ?_⟩
  · intro y hy
    have := hall y hy
    rw [nf_some_some, decide_eq_false_iff_not] at this
    exact this
  · simp [stage2Rows, hs, List.mem_filter, hmem]

theorem stage2Rows_sub (db : List Row) (t : ℚ) :
    ∀ y ∈ stage2Rows db t, y ∈ db := by
  intro y hy
  rcases hs : stage1Teff db t with _ | tv
  · simp only [stage2Rows, hs] at hy
    cases hy
  · simp only [stage2Rows, hs] at hy
    exact (List.mem_filter.mp hy).1

theorem stage2Rows_teff (db : List Row) (t : ℚ) {r y : Row}
    (hr : r ∈ stage2Rows db t) (hy : y ∈ db) (heq : y.teff = r.teff) :
    y ∈ stage2Rows db t := by
  rcases hs : stage1Teff db t with _ | tv
  · simp only [stage2Rows, hs] at hr
    cases hr
  · simp only [stage2Rows, hs] at hr ⊢
    have h2 := (List.mem_filter.mp hr).2
    rw [decide_eq_true_eq] at h2
    exact List.mem_filter.mpr ⟨hy, by rw [decide_eq_true_eq, heq, h2]⟩

/-- The full behaviour of the query on a non-empty table: it returns the
`(mu1, mu2)` of a row `r` whose `teff` minimizes `abs(teff - t)` over the
whole table and whose stage-2 key is minimal (in the NULL-first order) among
the rows sharing that `teff`; moreover `r` is the first such row. -/
theorem sqlFetch_spec (db : List Row) (t : ℚ) (logg feh : Option ℚ)
    (h : db ≠ []) :
    ∃ r ∈ stage2Rows db t, sqlFetch db t logg feh = .ok (r.mu1, r.mu2) ∧
      (∀ y ∈ db, ¬ sqlAbs (y.teff - t) < sqlAbs (r.teff - t)) ∧
      ∀ y ∈ stage2Rows db t,
        nullFirstLt (sqlDist logg feh y) (sqlDist logg feh r) = false := by
  obtain ⟨r1, hr1mem, hs, hmin1, hr1s2⟩ := stage1Teff_spec db t h
  have hne : stage2Rows db t ≠ [] := List.ne_nil_of_mem hr1s2
  obtain ⟨r, hr, hrmem, hall⟩ := pickMin_spec (sqlDist logg feh) _ hne
  have hrteff : r.teff = r1.teff := by
    have := hrmem
    unfold stage2Rows at this
    rw [hs] at this
    have := (List.mem_filter.mp this).2
    rwa [decide_eq_true_eq] at this
  refine ⟨r, hrmem, ?_, ?_, hall⟩
  · simp [sqlFetch, hr]
  · intro y hy
    rw [hrteff]
    exact hmin1 y hy

theorem sqlFetch_ne_invalidQuery (db : List Row) (t : ℚ)
    (logg feh : Option ℚ) :
    sqlFetch db t logg feh ≠ .error .invalidQuery := by
  unfold sqlFetch
  rcases pickMin (sqlDist logg feh) (stage2Rows db t) with _ | r <;> simp

theorem sqlFetch_empty (t : ℚ) (logg feh : Option ℚ) :
    sqlFetch [] t logg feh = .error .lookupError := rfl

/-! ## Filesystem lemmas -/

theorem FS.read_write_self (fs : FS) (p : String) (c : List Row) :
    (fs.write p c).read p = some c := by
  simp [FS.read, FS.write]

theorem FS.read_write_ne (fs : FS) {p q : String} (c : List Row)
    (h : p ≠ q) : (fs.write p c).read q = fs.read q := by
  simp [FS.read, FS.write, List.find?_cons, h]

theorem FS.read_mkdirs (fs : FS) (d p : String) :
    (fs.mkdirs d).read p = fs.read p := rfl

theorem FS.read_rename_self (fs : FS) {src dst : String} (c : List Row)
    (hread : fs.read src = some c) : (fs.rename src dst).read dst = some c := by
  unfold FS.rename
  rw [hread]
  exact FS.read_write_self _ _ _

/-! ## The spec's worked example, evaluated through the characterization -/

theorem example_eval :
    get_coeffs exampleDB (some 5800) (some 4.4) (some 0) = .ok (0.31, 0.25) := by
  obtain ⟨r, hrs2, hok, hmin1, _⟩ :=
    sqlFetch_spec exampleDB 5800 (some 4.4) (some 0) (by simp [exampleDB])
  have hrdb : r ∈ exampleDB := stage2Rows_sub _ _ r hrs2
  have hcases : r = (⟨5750, 4.5, 0, 2, 0.31, 0.25⟩ : Row) ∨
      r = (⟨6000, 4, 0, 2, 0.28, 0.22⟩ : Row) := by
    simpa [exampleDB] using hrdb
  have hr1 : r = (⟨5750, 4.5, 0, 2, 0.31, 0.25⟩ : Row) := by
    rcases hcases with h | h
    · exact h
    · exfalso
      have hlt := hmin1 ⟨5750, 4.5, 0, 2, 0.31, 0.25⟩ (by simp [exampleDB])
      rw [h] at hlt
      apply hlt
      norm_num [sqlAbs]
  rw [hr1] at hok
  simpa [get_coeffs, get_coeffsCount] using hok

/-! ## Behaviour of the provisioner -/

theorem download_cached (resp : HTTPResponse) (fs : FS) (tmp root : String)
    (h : fs.fileExists (dbPath root) = true) :
    download_database resp fs tmp (some root) false =
      ⟨.ok (dbPath root), fs, 0⟩ := by
  simp [download_database, h]

theorem download_ok_target (resp : HTTPResponse) (fs : FS) (tmp : String)
    (dr : Option String) (cb : Bool) (p : String)
    (h : (download_database resp fs tmp dr cb).res = .ok p) :
    p = dbPath (dr.getD KPLR_ROOT) ∧
      (download_database resp fs tmp dr cb).fs.fileExists p = true := by
  by_cases h1 : (!cb && fs.fileExists (dbPath (dr.getD KPLR_ROOT))) = true
  · have hd : download_database resp fs tmp dr cb =
        ⟨.ok (dbPath (dr.getD KPLR_ROOT)), fs, 0⟩ := by
      simp [download_database, h1]
    rw [hd] at h ⊢
    have hp : p = dbPath (dr.getD KPLR_ROOT) := by
      simpa using h.symm
    refine ⟨hp, ?_⟩
    have hex := (Bool.and_eq_true _ _).mp h1
    rw [hp]
    exact hex.2
  · rw [Bool.not_eq_true] at h1
    by_cases h2 : resp.status = 200
    · have hd : download_database resp fs tmp dr cb =
          ⟨.ok (dbPath (dr.getD KPLR_ROOT)),
            (((fs.mkdirs (dr.getD KPLR_ROOT)).write tmp resp.body).rename
              tmp (dbPath (dr.getD KPLR_ROOT))), 1⟩ := by
        simp [download_database, h1, h2]
      rw [hd] at h ⊢
      have hp : p = dbPath (dr.getD KPLR_ROOT) := by
        simpa using h.symm
      refine ⟨hp, ?_⟩
      have hrd : (((fs.mkdirs (dr.getD KPLR_ROOT)).write tmp resp.body).rename
          tmp (dbPath (dr.getD KPLR_ROOT))).read (dbPath (dr.getD KPLR_ROOT))
          = some resp.body :=
        FS.read_rename_self _ _ (FS.read_write_self _ _ _)
      rw [hp]
      simp [FS.fileExists, hrd]
    · have hd : download_database resp fs tmp dr cb =
          ⟨.error .downloadError, fs.mkdirs (dr.getD KPLR_ROOT), 1⟩ := by
        simp [download_database, h1, h2]
      rw [hd] at h
      cases h

theorem download_non200 (resp : HTTPResponse) (fs : FS) (tmp : String)
    (dr : Option String) (cb : Bool)
    (h1 : (!cb && fs.fileExists (dbPath (dr.getD KPLR_ROOT))) = false)
    (h2 : resp.status ≠ 200) :
    download_database resp fs tmp dr cb =
      ⟨.error .downloadError, fs.mkdirs (dr.getD KPLR_ROOT), 1⟩ := by
  simp [download_database, h1, h2]

theorem download_res_cases (resp : HTTPResponse) (fs : FS) (tmp : String)
    (dr : Option String) (cb : Bool) :
    (download_database resp fs tmp dr cb).res = .ok (dbPath (dr.getD KPLR_ROOT)) ∨
    (download_database resp fs tmp dr cb).res = .error .downloadError := by
  by_cases h1 : (!cb && fs.fileExists (dbPath (dr.getD KPLR_ROOT))) = true
  · left; simp [download_database, h1]
  · rw [Bool.not_eq_true] at h1
    by_cases h2 : resp.status = 200
    · left; simp [download_database, h1, h2]
    · right; simp [download_database, h1, h2]

theorem getLast?_append_singleton {α : Type} (l : List α) (a : α) :
    (l ++ [a]).getLast? = some a :=
  List.getLast?_concat l

/-! ## The claims -/

/-- C1: `get_coeffs` performs a two-stage nearest-neighbor lookup: on any
non-empty dataset with concrete `logg`/`feh` it returns the `(mu1, mu2)` of a
row whose `teff` minimizes `abs(teff_grid - teff_query)` over the whole
dataset and which, among the rows sharing that exact `teff`, minimizes
`(logg_grid - logg_query)^2 + (feh_grid - feh_query)^2`; and on the spec's
two-row example dataset the query `teff=5800, logg=4.4, feh=0` returns
`(0.31, 0.25)`. -/
theorem get_coeffs_two_stage (db : List Row) (t l f : ℚ) (hdb : db ≠ []) :
    (∃ r ∈ db, get_coeffs db (some t) (some l) (some f) = .ok (r.mu1, r.mu2) ∧
      (∀ y ∈ db, sqlAbs (r.teff - t) ≤ sqlAbs (y.teff - t)) ∧
      (∀ y ∈ db, y.teff = r.teff →
        (r.logg - l) * (r.logg - l) + (r.feh - f) * (r.feh - f) ≤
          (y.logg - l) * (y.logg - l) + (y.feh - f) * (y.feh - f))) ∧
    get_coeffs exampleDB (some 5800) (some 4.4) (some 0) = .ok (0.31, 0.25) := by
  refine ⟨?_, example_eval⟩
  obtain ⟨r, hrs2, hok, hmin1, hmin2⟩ := sqlFetch_spec db t (some l) (some f) hdb
  refine ⟨r, stage2Rows_sub db t r hrs2, hok, ?_, ?_⟩
  · intro y hy
    exact not_lt.mp (hmin1 y hy)
  · intro y hy hteff
    have hys2 : y ∈ stage2Rows db t := stage2Rows_teff db t hrs2 hy hteff
    have := hmin2 y hys2
    rw [sqlDist, sqlDist, nf_some_some, decide_eq_false_iff_not] at this
    exact not_lt.mp this

theorem get_coeffs_two_stage_witness :
    get_coeffs exampleDB (some 5800) (some 4.4) (some 0) = .ok (0.31, 0.25) :=
  (get_coeffs_two_stage exampleDB 5800 4.4 0 (by simp [exampleDB])).2

/-- C2: when `root_dir/ldcoeffs.db` already exists and `clobber` is false,
`download_database` returns that path at once with the filesystem unchanged
and zero network requests; consequently a second call after any successful
first call makes no network request and returns the same path. -/
theorem download_database_idempotent (resp resp' : HTTPResponse) (fs : FS)
    (tmp tmp' root : String) :
    (fs.fileExists (dbPath root) = true →
      download_database resp fs tmp (some root) false =
        ⟨.ok (dbPath root), fs, 0⟩) ∧
    ∀ p, (download_database resp fs tmp (some root) false).res = .ok p →
      download_database resp' (download_database resp fs tmp (some root) false).fs
          tmp' (some root) false =
        ⟨.ok p, (download_database resp fs tmp (some root) false).fs, 0⟩ := by
  constructor
  · intro h
    exact download_cached resp fs tmp root h
  · intro p h
    obtain ⟨hp, hex⟩ := download_ok_target resp fs tmp (some root) false p h
    rw [hp] at hex ⊢
    exact download_cached resp' _ tmp' root hex

theorem download_database_idempotent_witness :
    download_database respOK fsCached "t" (some "r") false =
      ⟨.ok (dbPath "r"), fsCached, 0⟩ :=
  (download_database_idempotent respOK respOK fsCached "t" "t" "r").1 rfl

/-- C3: at every step of the provisioning download (the states of
`downloadTrace`), the target path holds either what it held before the call
or the complete new dataset, never a partial write (the body goes to a
distinct temporary file, which is renamed onto the target atomically at the
last step); and the trace ends in exactly the filesystem
`download_database` returns. -/
theorem download_database_atomic (resp : HTTPResponse) (fs : FS)
    (tmp root : String) (clobber : Bool) (htmp : tmp ≠ dbPath root) :
    (∀ s ∈ downloadTrace resp fs tmp (some root) clobber,
      s.read (dbPath root) = fs.read (dbPath root) ∨
        s.read (dbPath root) = some resp.body) ∧
    (downloadTrace resp fs tmp (some root) clobber).getLast? =
      some (download_database resp fs tmp (some root) clobber).fs := by
  by_cases h1 : (!clobber && fs.fileExists (dbPath root)) = true
  · have htr : downloadTrace resp fs tmp (some root) clobber = [fs] := by
      simp [downloadTrace, h1]
    have hd : download_database resp fs tmp (some root) clobber =
        ⟨.ok (dbPath root), fs, 0⟩ := by
      simp [download_database, h1]
    rw [htr, hd]
    constructor
    · intro s hs
      rw [List.mem_singleton] at hs
      exact Or.inl (by rw [hs])
    · rfl
  · rw [Bool.not_eq_true] at h1
    by_cases h2 : resp.status = 200
    · have htr : downloadTrace resp fs tmp (some root) clobber =
          ([fs, fs.mkdirs root]
            ++ ((List.range (resp.body.length + 1)).map
                  fun k => (fs.mkdirs root).write tmp (resp.body.take k)))
            ++ [((fs.mkdirs root).write tmp resp.body).rename tmp (dbPath root)] := by
        simp [downloadTrace, h1, h2]
      have hd : download_database resp fs tmp (some root) clobber =
          ⟨.ok (dbPath root),
            ((fs.mkdirs root).write tmp resp.body).rename tmp (dbPath root), 1⟩ := by
        simp [download_database, h1, h2]
      constructor
      · intro s hs
        rw [htr] at hs
        rcases List.mem_append.mp hs with hs' | hs'
        · rcases List.mem_append.mp hs' with hs'' | hs''
          · rcases List.mem_cons.mp hs'' with h | h
            · exact Or.inl (by rw [h])
            · rw [List.mem_singleton] at h
              exact Or.inl (by rw [h]; exact FS.read_mkdirs fs root (dbPath root))
          · obtain ⟨k, _, hk⟩ := List.mem_map.mp hs''
            refine Or.inl ?_
            rw [← hk, FS.read_write_ne _ _ htmp]
            exact FS.read_mkdirs fs root (dbPath root)
        · rw [List.mem_singleton] at hs'
          refine Or.inr ?_
          rw [hs']
          exact FS.read_rename_self _ _ (FS.read_write_self _ _ _)
      · rw [htr, hd, getLast?_append_singleton]
    · have htr : downloadTrace resp fs tmp (some root) clobber =
          [fs, fs.mkdirs root] := by
        simp [downloadTrace, h1, h2]
      have hd : download_database resp fs tmp (some root) clobber =
          ⟨.error .downloadError, fs.mkdirs root, 1⟩ := by
        simp [download_database, h1, h2]
      rw [htr, hd]
      constructor
      · intro s hs
        rcases List.mem_cons.mp hs with h | h
        · exact Or.inl (by rw [h])
        · rw [List.mem_singleton] at h
          exact Or.inl (by rw [h]; exact FS.read_mkdirs fs root (dbPath root))
      · rfl

theorem download_database_atomic_witness :
    (∀ s ∈ downloadTrace respOK fsEmpty "t" (some "r") false,
      s.read (dbPath "r") = fsEmpty.read (dbPath "r") ∨
        s.read (dbPath "r") = some respOK.body) ∧
    (downloadTrace respOK fsEmpty "t" (some "r") false).getLast? =
      some (download_database respOK fsEmpty "t" (some "r") false).fs :=
  download_database_atomic respOK fsEmpty "t" "r" false (by decide)

/-- C4: on a non-200 response taken through the download path (no usable
cached file), `download_database` fails with the download error, with
exactly one request (no retry) and no change to any file, in particular
none installed at the target path. -/
theorem download_database_error (resp : HTTPResponse) (fs : FS) (tmp : String)
    (dr : Option String) (cb : Bool) (hstatus : resp.status ≠ 200)
    (hfresh : cb = true ∨ fs.fileExists (dbPath (dr.getD KPLR_ROOT)) = false) :
    download_database resp fs tmp dr cb =
      ⟨.error .downloadError, fs.mkdirs (dr.getD KPLR_ROOT), 1⟩ ∧
    (download_database resp fs tmp dr cb).fs.files = fs.files ∧
    (download_database resp fs tmp dr cb).netCalls = 1 := by
  have h1 : (!cb && fs.fileExists (dbPath (dr.getD KPLR_ROOT))) = false := by
    rcases hfresh with h | h <;> simp [h]
  have hd := download_non200 resp fs tmp dr cb h1 hstatus
  refine ⟨hd, ?_, ?_⟩
  · rw [hd]
    rfl
  · rw [hd]


theorem download_database_error_witness :
    download_database respBad fsEmpty "t" (some "r") false =
      ⟨.error .downloadError, fsEmpty.mkdirs "r", 1⟩ ∧
    (download_database respBad fsEmpty "t" (some "r") false).fs.files =
      fsEmpty.files ∧
    (download_database respBad fsEmpty "t" (some "r") false).netCalls = 1 :=
  download_database_error respBad fsEmpty "t" (some "r") false
    (by decide) (Or.inr rfl)

/-- C5: a query with `teff` absent fails with the invalid-query error before
any database access: the instrumented lookup reports zero connections, and
the adaptor method surfaces the same error for every filesystem state. -/
theorem get_coeffs_requires_teff (db : List Row) (logg feh : Option ℚ)
    (a : LDCoeffAdaptor) (fs : FS) :
    get_coeffsCount db none logg feh = (.error .invalidQuery, 0) ∧
    a.get_coeffs fs none logg feh = .error .invalidQuery :=
  ⟨rfl, rfl⟩

/-- C6: with a concrete `teff`, the lookup fails with the lookup error
exactly when the dataset is empty (the query yields no row); on any
non-empty dataset it returns a coefficient pair. -/
theorem get_coeffs_lookup_error_iff (db : List Row) (t : ℚ)
    (logg feh : Option ℚ) :
    get_coeffs db (some t) logg feh = .error .lookupError ↔ db = [] := by
  constructor
  · intro h
    by_contra hne
    obtain ⟨r, _, hok, _, _⟩ := sqlFetch_spec db t logg feh hne
    have hok' : get_coeffs db (some t) logg feh = .ok (r.mu1, r.mu2) := hok
    rw [h] at hok'
    exact Except.noConfusion hok'
  · intro h
    subst h
    rfl

/-- C7: a query with `logg` or `feh` absent is not rejected: the `NULL`
propagates into the stage-2 distance expression, which is `NULL` for every
candidate row, and the row returned is the first candidate (at the nearest
`teff`) in the dataset's natural row order. -/
theorem get_coeffs_null_params (db : List Row) (t : ℚ) (logg feh : Option ℚ)
    (hdb : db ≠ []) (hnull : logg = none ∨ feh = none) :
    (∀ y ∈ stage2Rows db t, sqlDist logg feh y = none) ∧
    ∃ r, (stage2Rows db t).head? = some r ∧
      get_coeffs db (some t) logg feh = .ok (r.mu1, r.mu2) := by
  have hdist : ∀ y, sqlDist logg feh y = none := by
    intro y
    rcases hnull with h | h
    · subst h
      rcases feh with _ | f <;> rfl
    · subst h
      rcases logg with _ | l <;> rfl
  obtain ⟨r1, _, _, _, hr1s2⟩ := stage1Teff_spec db t hdb
  have hs2ne : stage2Rows db t ≠ [] := List.ne_nil_of_mem hr1s2
  have hpick : pickMin (sqlDist logg feh) (stage2Rows db t) =
      (stage2Rows db t).head? :=
    pickMin_all_none _ _ fun y _ => hdist y
  rcases hhd : (stage2Rows db t).head? with _ | x
  · exact absurd (List.head?_eq_none_iff.mp hhd) hs2ne
  · refine ⟨fun y _ => hdist y, x, rfl, ?_⟩
    show sqlFetch db t logg feh = .ok (x.mu1, x.mu2)
    rw [sqlFetch, hpick, hhd]

theorem get_coeffs_null_params_witness :
    (∀ y ∈ stage2Rows exampleDB 5800, sqlDist none (some 0) y = none) ∧
    ∃ r, (stage2Rows exampleDB 5800).head? = some r ∧
      get_coeffs exampleDB (some 5800) none (some 0) = .ok (r.mu1, r.mu2) :=
  get_coeffs_null_params exampleDB 5800 none (some 0)
    (by simp [exampleDB]) (Or.inl rfl)

/-- C8: the lookup is deterministic: two calls with identical inputs against
the same dataset return the same (bit-identical) coefficient pair. -/
theorem get_coeffs_deterministic (db : List Row) (teff logg feh : Option ℚ)
    (p₁ p₂ : ℚ × ℚ) (h₁ : get_coeffs db teff logg feh = .ok p₁)
    (h₂ : get_coeffs db teff logg feh = .ok p₂) : p₁ = p₂ := by
  rw [h₁] at h₂
  exact Except.ok.inj h₂

theorem get_coeffs_deterministic_witness :
    ((0.31 : ℚ), (0.25 : ℚ)) = ((0.31 : ℚ), (0.25 : ℚ)) :=
  get_coeffs_deterministic exampleDB (some 5800) (some 4.4) (some 0) _ _
    example_eval example_eval

/-- C9: `get_quad_coeffs` defaults `teff` to `5778` (and `logg`, `feh`,
`data_root` to the absent value), so a call with no arguments runs the
lookup at `teff = 5778` and can never fail with the missing-`teff`
(invalid-query) error. -/
theorem get_quad_coeffs_default (resp : HTTPResponse) (fs : FS) (tmp : String) :
    get_quad_coeffs resp fs tmp =
      (match LDCoeffAdaptor.new resp fs tmp none false with
       | .error e => .error e
       | .ok (a, fs') => a.get_coeffs fs' (some 5778) none none) ∧
    get_quad_coeffs resp fs tmp ≠ .error .invalidQuery := by
  refine ⟨rfl, ?_⟩
  rcases download_res_cases resp fs tmp none false with hres | hres
  · have hn : LDCoeffAdaptor.new resp fs tmp none false =
        .ok (⟨dbPath ((none : Option String).getD KPLR_ROOT)⟩,
          (download_database resp fs tmp none false).fs) := by
      rw [LDCoeffAdaptor.new, hres]
    rw [get_quad_coeffs, hn]
    exact sqlFetch_ne_invalidQuery _ _ _ _
  · have hn : LDCoeffAdaptor.new resp fs tmp none false =
        .error .downloadError := by
      rw [LDCoeffAdaptor.new, hres]
    rw [get_quad_coeffs, hn]
    simp

/-- C10: the convenience function and the adaptor object are the same
lookup: `get_quad_coeffs(teff, logg, feh, data_root)` equals constructing
`LDCoeffAdaptor(data_root, clobber=False)` and calling
`get_coeffs(teff, logg, feh)` on it, error propagation included. -/
theorem get_quad_coeffs_eq_adaptor (resp : HTTPResponse) (fs : FS)
    (tmp : String) (teff logg feh : Option ℚ) (data_root : Option String) :
    get_quad_coeffs resp fs tmp teff logg feh data_root =
      match LDCoeffAdaptor.new resp fs tmp data_root false with
      | .error e => .error e
      | .ok (a, fs') => a.get_coeffs fs' teff logg feh := rfl
